import Mathlib

/-!
Verification of the pinner-resolution-and-recovery-dispatch protocol
(package `prod` of the swarm repository, file `prod/prod.go`).

The Go code is shallowly embedded: byte sequences become `List Nat`,
external collaborators (the feed handler, the elliptic-curve crypto, the
JSON decoder, the messaging transport and the chunk store) become oracle
functions collected in an `Env` structure, and each embedded operation
additionally returns the trace of calls it issued to those collaborators,
so claims of the form "the fallback feed is never queried" are statable.
The hex decoder (`encoding/hex.DecodeString`) is implemented concretely,
following the Go standard library's behaviour.
-/

/-- Byte sequences (`[]byte` in Go); each entry is one byte. -/
abbrev Bytes := List Nat

/-- A network address (`common.Address`). -/
abbrev Address := List Nat

/-- A feed topic (`feed.Topic`). -/
abbrev FeedTopic := List Nat

/-- A trojan topic (`trojan.Topic`). -/
abbrev TrojanTopic := List Nat

/-- `trojan.Target`: an opaque byte prefix. -/
abbrev Target := List Nat

/-- `trojan.Targets`: an ordered collection of targets. -/
abbrev Targets := List Target

/-- The error values of the `prod` package, plus `external` for errors
produced by external collaborators and passed through unchanged. -/
inductive GoError where
  | errPublisher
  | errPubKey
  | errFeedLookup
  | errFeedContent
  | errContextHash
  | errTargets
  | external (msg : String)
deriving DecidableEq, Repr

/-- A feed: the pair of a topic and the publisher's derived address
(`feed.Feed` with fields `Topic` and `User`). -/
structure Feed where
  topic : FeedTopic
  user : Address
deriving DecidableEq, Repr

/-- One call issued to the external feed handler. -/
inductive FeedEvent where
  | lookup (fd : Feed)
  | getContent (fd : Feed)
deriving DecidableEq, Repr

/-- The feed an event was issued against. -/
def eventFeed : FeedEvent → Feed
  | FeedEvent.lookup fd => fd
  | FeedEvent.getContent fd => fd

/-- The request context: Go carries `publisher` and `hash` as untyped
context values; `none` models a value that is absent or not a string. -/
structure Context where
  publisher : Option String
  hash : Option String
deriving DecidableEq, Repr

/-- `chunk.ModeSet*` state-transition modes of the chunk store. -/
inductive ModeSet where
  | access
  | syncPush
  | syncPull
  | remove
  | pin
  | unpin
  | reUpload
deriving DecidableEq, Repr

/-- `trojan.Message`: only the topic and payload are relevant here. -/
structure TrojanMessage where
  topic : TrojanTopic
  payload : Bytes
deriving DecidableEq, Repr

/-- One call issued to the external chunk store's `Set`. -/
structure StoreCall where
  mode : ModeSet
  addr : Bytes
deriving DecidableEq, Repr

/-- One call issued to the external trojan-chunk sender. -/
structure SendCall where
  targets : Targets
  topic : TrojanTopic
  payload : Bytes
deriving DecidableEq, Repr

/-- The external collaborators, as deterministic oracles:
`newTopic` is `feed.NewTopic(text, nil)`; `decompressPubkey` and
`pubkeyToAddress` are go-ethereum's `crypto.DecompressPubkey` and
`crypto.PubkeyToAddress`; `lookup` gives the error message of
`handler.Lookup` on a feed's latest-update query (or `none` on success);
`getContent` is `handler.GetContent`; `unmarshalTargets` is
`json.Unmarshal` into a `trojan.Targets`; `trojanNewTopic` is
`trojan.NewTopic`; `send` is the trojan-chunk sender (its `*pss.Monitor`
result is modelled as `Unit`); `set` is `(*chunk.ValidatorStore).Set`. -/
structure Env where
  newTopic : String → Except String FeedTopic
  decompressPubkey : Bytes → Except String Bytes
  pubkeyToAddress : Bytes → Address
  lookup : Feed → Option String
  getContent : Feed → Except String Bytes
  unmarshalTargets : Bytes → Except String Targets
  trojanNewTopic : String → TrojanTopic
  send : Context → Targets → TrojanTopic → Bytes → Except GoError Unit
  set : ModeSet → Bytes → Except String Unit

/-- `RecoveryTopicText`: the string used to construct the recovery topic. -/
def RecoveryTopicText : String := "RECOVERY"

/-- `RecoveryTopic`: the trojan topic used for repairing globally pinned
chunks, `trojan.NewTopic(RecoveryTopicText)`. -/
def RecoveryTopic (env : Env) : TrojanTopic :=
  env.trojanNewTopic RecoveryTopicText

/-- Value of one hexadecimal digit, `none` when the character is not a
hex digit (Go `encoding/hex.fromHexChar`). -/
def hexDigitVal (c : Char) : Option Nat :=
  if '0' ≤ c ∧ c ≤ '9' then some (c.toNat - '0'.toNat)
  else if 'a' ≤ c ∧ c ≤ 'f' then some (c.toNat - 'a'.toNat + 10)
  else if 'A' ≤ c ∧ c ≤ 'F' then some (c.toNat - 'A'.toNat + 10)
  else none

/-- Decode a list of hex characters two at a time; fails on an odd-length
input or a non-hex character (Go `encoding/hex.Decode`). -/
def hexDecodeList : List Char → Option Bytes
  | [] => some []
  | [_] => none
  | c1 :: c2 :: rest =>
    match hexDigitVal c1 with
    | none => none
    | some hi =>
      match hexDigitVal c2 with
      | none => none
      | some lo =>
        match hexDecodeList rest with
        | none => none
        | some bs => some ((hi * 16 + lo) :: bs)

/-- Go `encoding/hex.DecodeString`: `none` models a decoding error. -/
def hexDecode (s : String) : Option Bytes :=
  hexDecodeList s.data

/-- `publisherToAddress` of `prod.go`: hex-decode the publisher string
(failure → `ErrPublisher`), decompress the bytes as a public key
(failure → `ErrPubKey`), then derive the account address. -/
def publisherToAddress (env : Env) (publisher : String) : Except GoError Address :=
  match hexDecode publisher with
  | none => Except.error GoError.errPublisher
  | some publisherBytes =>
    match env.decompressPubkey publisherBytes with
    | Except.error _ => Except.error GoError.errPubKey
    | Except.ok pubKey => Except.ok (env.pubkeyToAddress pubKey)

/-- `getFeedTopicAndUser` of `prod.go`: build the feed topic from the
topic text, then resolve the publisher to a user address; either
failure is propagated. -/
def getFeedTopicAndUser (env : Env) (topicText publisher : String) :
    Except GoError (FeedTopic × Address) :=
  match env.newTopic topicText with
  | Except.error e => Except.error (GoError.external e)
  | Except.ok topic =>
    match publisherToAddress env publisher with
    | Except.error e => Except.error e
    | Except.ok user => Except.ok (topic, user)

/-- The guard `err != nil && err.Error() != "no feed updates found"` of
`getFeedContent`. -/
def lookupIsFatal : Option String → Bool
  | none => false
  | some msg => msg != "no feed updates found"

/-- `getFeedContent` of `prod.go`: look up the feed's latest update
(a fatal failure → `ErrFeedLookup`, but "no feed updates found" is
non-fatal), then read the feed content (failure → `ErrFeedContent`).
The second component is the trace of feed-handler calls issued. -/
def getFeedContent (env : Env) (topic : FeedTopic) (user : Address) :
    Except GoError Bytes × List FeedEvent :=
  let fd : Feed := { topic := topic, user := user }
  if lookupIsFatal (env.lookup fd) then
    (Except.error GoError.errFeedLookup, [FeedEvent.lookup fd])
  else
    match env.getContent fd with
    | Except.error _ =>
      (Except.error GoError.errFeedContent,
        [FeedEvent.lookup fd, FeedEvent.getContent fd])
    | Except.ok content =>
      (Except.ok content, [FeedEvent.lookup fd, FeedEvent.getContent fd])

/-- `queryRecoveryFeed` of `prod.go`: derive the topic and user, and when
that succeeds read the feed content; any error is returned. -/
def queryRecoveryFeed (env : Env) (topicText publisher : String) :
    Except GoError Bytes × List FeedEvent :=
  match getFeedTopicAndUser env topicText publisher with
  | Except.error e => (Except.error e, [])
  | Except.ok (topic, user) => getFeedContent env topic user

/-- `getPinners` of `prod.go`: query the recovery feed with the context's
publisher; on failure, either propagate the error (no fallback publisher),
fail with `ErrContextHash` (no hash in context), or query the fallback
feed once; finally unmarshal the obtained content as targets
(failure → `ErrTargets`). -/
def getPinners (env : Env) (ctx : Context) (fallbackPublisher : String) :
    Except GoError Targets × List FeedEvent :=
  let publisher := ctx.publisher.getD ""
  let afterFallback : Except GoError Bytes × List FeedEvent :=
    match queryRecoveryFeed env RecoveryTopicText publisher with
    | (Except.ok content, evs) => (Except.ok content, evs)
    | (Except.error err, evs) =>
      if fallbackPublisher = "" then
        (Except.error err, evs)
      else
        match ctx.hash with
        | none => (Except.error GoError.errContextHash, evs)
        | some hash =>
          let fb := queryRecoveryFeed env (RecoveryTopicText ++ "_" ++ hash)
            fallbackPublisher
          (fb.1, evs ++ fb.2)
  match afterFallback with
  | (Except.error err, evs) => (Except.error err, evs)
  | (Except.ok feedContent, evs) =>
    match env.unmarshalTargets feedContent with
    | Except.error _ => (Except.error GoError.errTargets, evs)
    | Except.ok targets => (Except.ok targets, evs)

/-- `NewRecoveryHook` of `prod.go`, applied to a context and a chunk
address: resolve the pinners and, on success, send a trojan chunk with
the recovery topic and the chunk address as payload; the returned
monitor is discarded. The last two components are the traces of
feed-handler calls and of sender calls. -/
def NewRecoveryHook (env : Env) (fallbackPublisher : String) (ctx : Context)
    (chunkAddress : Bytes) :
    Except GoError Unit × List FeedEvent × List SendCall :=
  match getPinners env ctx fallbackPublisher with
  | (Except.error err, evs) => (Except.error err, evs, [])
  | (Except.ok targets, evs) =>
    let payload := chunkAddress
    match env.send ctx targets (RecoveryTopic env) payload with
    | Except.error err =>
      (Except.error err, evs, [⟨targets, RecoveryTopic env, payload⟩])
    | Except.ok _ =>
      (Except.ok (), evs, [⟨targets, RecoveryTopic env, payload⟩])

/-- `NewRepairHandler` of `prod.go`, applied to a message: issue a
`ModeSetReUpload` state transition to the store for the message payload,
discarding the store's result; the handler returns nothing, so its
embedding returns only the trace of store calls. -/
def NewRepairHandler (env : Env) (m : TrojanMessage) : List StoreCall :=
  let chAddr := m.payload
  let _ := env.set ModeSet.reUpload chAddr
  [⟨ModeSet.reUpload, chAddr⟩]

/-! ### Helper lemmas about the query traces -/

/-- Every feed-handler call issued by `getFeedContent` is against the
feed it was given. -/
theorem getFeedContent_events (env : Env) (t : FeedTopic) (u : Address) :
    ∀ ev ∈ (getFeedContent env t u).2, eventFeed ev = ⟨t, u⟩ := by
  intro ev hev
  simp only [getFeedContent] at hev
  split at hev
  · simp only [List.mem_singleton] at hev
    subst hev; rfl
  · split at hev <;>
    · simp only [List.mem_cons, List.not_mem_nil, or_false] at hev
      rcases hev with h | h <;> (subst h; rfl)

/-- Every feed-handler call issued by `queryRecoveryFeed` is against the
feed derived from its own topic text and publisher. -/
theorem queryRecoveryFeed_events (env : Env) (topicText publisher : String) :
    ∀ ev ∈ (queryRecoveryFeed env topicText publisher).2,
      getFeedTopicAndUser env topicText publisher =
        Except.ok ((eventFeed ev).topic, (eventFeed ev).user) := by
  intro ev hev
  unfold queryRecoveryFeed at hev
  split at hev
  · simp at hev
  · rename_i topic user heq
    have hf := getFeedContent_events env topic user ev hev
    rw [heq, hf]

/-! ### Sample environments used by the witnesses -/

/-- Byte encoding of a topic text, used as a stand-in topic derivation. -/
def topicBytes (s : String) : FeedTopic := s.data.map Char.toNat

/-- A fully successful sample environment. -/
def okEnv : Env where
  newTopic := fun _ => Except.ok [1]
  decompressPubkey := fun bs =>
    if bs = [] then Except.error "invalid public key" else Except.ok bs
  pubkeyToAddress := fun k => k
  lookup := fun _ => none
  getContent := fun _ => Except.ok [42]
  unmarshalTargets := fun bs =>
    if bs = [42] then Except.ok [[7]] else Except.error "invalid character"
  trojanNewTopic := fun _ => [2]
  send := fun _ _ _ _ => Except.ok ()
  set := fun _ _ => Except.ok ()

/-- A sample environment whose feed lookups always fail fatally. -/
def lookupFailEnv : Env :=
  { okEnv with lookup := fun _ => some "boom" }

/-- A sample environment where only the primary recovery feed's lookup
fails, while any other feed resolves and has content. -/
def mixedEnv : Env :=
  { okEnv with
    newTopic := fun s => Except.ok (topicBytes s)
    lookup := fun fd =>
      if fd.topic = topicBytes RecoveryTopicText then some "boom" else none }

/-! ### Claims -/

/-- C1: when the primary recovery-feed query (topic text "RECOVERY",
the context's publisher) succeeds and the bytes unmarshal as targets,
`getPinners` returns exactly those targets with no error, and its trace
is exactly the primary query's trace, every call of which is against the
primary feed — so the fallback feed is never queried. -/
theorem getPinners_primary_success (env : Env) (ctx : Context) (fb : String)
    (bs : Bytes) (evs : List FeedEvent) (ts : Targets)
    (hq : queryRecoveryFeed env RecoveryTopicText (ctx.publisher.getD "") =
      (Except.ok bs, evs))
    (hu : env.unmarshalTargets bs = Except.ok ts) :
    getPinners env ctx fb = (Except.ok ts, evs) ∧
      ∀ ev ∈ evs, getFeedTopicAndUser env RecoveryTopicText (ctx.publisher.getD "") =
        Except.ok ((eventFeed ev).topic, (eventFeed ev).user) := by
  constructor
  · simp only [getPinners, hq, hu]
  · intro ev hev
    have hall := queryRecoveryFeed_events env RecoveryTopicText (ctx.publisher.getD "") ev
    rw [hq] at hall
    exact hall hev

/-- Witness for C1 at a concrete environment and context. -/
theorem getPinners_primary_success_witness :
    getPinners okEnv ⟨some "ab", none⟩ "" =
      (Except.ok [[7]],
        [FeedEvent.lookup ⟨[1], [171]⟩, FeedEvent.getContent ⟨[1], [171]⟩]) :=
  (getPinners_primary_success okEnv ⟨some "ab", none⟩ "" [42]
    [FeedEvent.lookup ⟨[1], [171]⟩, FeedEvent.getContent ⟨[1], [171]⟩] [[7]]
    rfl rfl).1

/-- C2: when the primary recovery-feed query fails and the fallback
publisher is the empty string, `getPinners` returns the primary error
unchanged, with a trace equal to the primary query's trace (no further
feed query). -/
theorem getPinners_no_fallback (env : Env) (ctx : Context)
    (e : GoError) (evs : List FeedEvent)
    (hq : queryRecoveryFeed env RecoveryTopicText (ctx.publisher.getD "") =
      (Except.error e, evs)) :
    getPinners env ctx "" = (Except.error e, evs) := by
  simp [getPinners, hq]

/-- Witness for C2 at a concrete environment and context. -/
theorem getPinners_no_fallback_witness :
    getPinners lookupFailEnv ⟨some "ab", none⟩ "" =
      (Except.error GoError.errFeedLookup, [FeedEvent.lookup ⟨[1], [171]⟩]) :=
  getPinners_no_fallback lookupFailEnv ⟨some "ab", none⟩ GoError.errFeedLookup
    [FeedEvent.lookup ⟨[1], [171]⟩] rfl

/-- C3: when the primary recovery-feed query fails, a non-empty fallback
publisher is configured, and the context carries no hash string,
`getPinners` fails with `ErrContextHash` and its trace is exactly the
primary query's trace — no fallback feed query is issued. -/
theorem getPinners_missing_hash (env : Env) (ctx : Context) (fb : String)
    (e : GoError) (evs : List FeedEvent)
    (hq : queryRecoveryFeed env RecoveryTopicText (ctx.publisher.getD "") =
      (Except.error e, evs))
    (hfb : fb ≠ "")
    (hh : ctx.hash = none) :
    getPinners env ctx fb = (Except.error GoError.errContextHash, evs) := by
  simp [getPinners, hq, if_neg hfb, hh]

/-- Witness for C3 at a concrete environment and context. -/
theorem getPinners_missing_hash_witness :
    getPinners lookupFailEnv ⟨some "ab", none⟩ "ab" =
      (Except.error GoError.errContextHash, [FeedEvent.lookup ⟨[1], [171]⟩]) :=
  getPinners_missing_hash lookupFailEnv ⟨some "ab", none⟩ "ab"
    GoError.errFeedLookup [FeedEvent.lookup ⟨[1], [171]⟩]
    rfl (by decide) rfl

/-- C4: when the primary recovery-feed query fails, a non-empty fallback
publisher is configured, and the context carries hash `h`, `getPinners`
issues exactly the calls of one further feed query — with topic text
`"RECOVERY_" ++ h` and the fallback publisher — after the primary calls;
every one of those calls is against the feed derived from that topic text
and the fallback publisher's address; and any failure of the fallback
attempt is returned as-is. -/
theorem getPinners_fallback_once (env : Env) (ctx : Context) (fb : String)
    (e : GoError) (evs : List FeedEvent) (h : String)
    (hq : queryRecoveryFeed env RecoveryTopicText (ctx.publisher.getD "") =
      (Except.error e, evs))
    (hfb : fb ≠ "")
    (hh : ctx.hash = some h) :
    (getPinners env ctx fb).2 =
      evs ++ (queryRecoveryFeed env ("RECOVERY_" ++ h) fb).2 ∧
    (∀ ev ∈ (queryRecoveryFeed env ("RECOVERY_" ++ h) fb).2,
      getFeedTopicAndUser env ("RECOVERY_" ++ h) fb =
        Except.ok ((eventFeed ev).topic, (eventFeed ev).user)) ∧
    (∀ e2, (queryRecoveryFeed env ("RECOVERY_" ++ h) fb).1 = Except.error e2 →
      (getPinners env ctx fb).1 = Except.error e2) := by
  have htop : RecoveryTopicText ++ "_" ++ h = "RECOVERY_" ++ h :=
    congrArg (fun s => s ++ h) (by decide)
  cases hfq : queryRecoveryFeed env ("RECOVERY_" ++ h) fb with
  | mk fbRes fbEvs =>
    refine ⟨?_, ?_, ?_⟩
    · cases fbRes with
      | error err => simp [getPinners, hq, if_neg hfb, hh, htop, hfq]
      | ok c =>
        cases hu : env.unmarshalTargets c <;>
          simp [getPinners, hq, if_neg hfb, hh, htop, hfq, hu]
    · intro ev hev
      have hall := queryRecoveryFeed_events env ("RECOVERY_" ++ h) fb ev
      rw [hfq] at hall
      exact hall hev
    · intro e2 he2
      cases fbRes with
      | error err =>
        simp only [Except.error.injEq] at he2
        simp [getPinners, hq, if_neg hfb, hh, htop, hfq, he2]
      | ok c => simp at he2

/-- Witness for C4 at a concrete environment and context. -/
theorem getPinners_fallback_once_witness :
    (getPinners mixedEnv ⟨some "ab", some "h"⟩ "ab").2 =
      [FeedEvent.lookup ⟨topicBytes "RECOVERY", [171]⟩] ++
        (queryRecoveryFeed mixedEnv ("RECOVERY_" ++ "h") "ab").2 :=
  (getPinners_fallback_once mixedEnv ⟨some "ab", some "h"⟩ "ab"
    GoError.errFeedLookup [FeedEvent.lookup ⟨topicBytes "RECOVERY", [171]⟩] "h"
    rfl (by decide) rfl).1

/-- A sample environment whose feed content never unmarshals as targets. -/
def badJsonEnv : Env :=
  { okEnv with getContent := fun _ => Except.ok [9] }

/-- C5: whenever a feed query (primary or fallback) succeeds but its bytes
do not unmarshal as targets, `getPinners` fails with `ErrTargets` at once;
in particular, after a successful primary fetch whose content fails to
parse, the trace stays exactly the primary query's trace for every
fallback publisher — the fallback is never attempted. -/
theorem getPinners_targets_decode_error (env : Env) (ctx : Context) (fb : String) :
    (∀ bs evs m,
      queryRecoveryFeed env RecoveryTopicText (ctx.publisher.getD "") =
        (Except.ok bs, evs) →
      env.unmarshalTargets bs = Except.error m →
      getPinners env ctx fb = (Except.error GoError.errTargets, evs)) ∧
    (∀ e evs h bs fbEvs m,
      queryRecoveryFeed env RecoveryTopicText (ctx.publisher.getD "") =
        (Except.error e, evs) →
      fb ≠ "" → ctx.hash = some h →
      queryRecoveryFeed env ("RECOVERY_" ++ h) fb = (Except.ok bs, fbEvs) →
      env.unmarshalTargets bs = Except.error m →
      getPinners env ctx fb = (Except.error GoError.errTargets, evs ++ fbEvs)) := by
  constructor
  · intro bs evs m hq hu
    simp [getPinners, hq, hu]
  · intro e evs h bs fbEvs m hq hfb hh hfq hu
    have htop : RecoveryTopicText ++ "_" ++ h = "RECOVERY_" ++ h :=
      congrArg (fun s => s ++ h) (by decide)
    simp [getPinners, hq, if_neg hfb, hh, htop, hfq, hu]

/-- Witness for C5: primary content fetch succeeds, parsing fails, and the
result is `ErrTargets` with only the primary calls in the trace even
though a fallback publisher and a hash are both available. -/
theorem getPinners_targets_decode_error_witness :
    getPinners badJsonEnv ⟨some "ab", some "h"⟩ "ab" =
      (Except.error GoError.errTargets,
        [FeedEvent.lookup ⟨[1], [171]⟩, FeedEvent.getContent ⟨[1], [171]⟩]) :=
  (getPinners_targets_decode_error badJsonEnv ⟨some "ab", some "h"⟩ "ab").1
    [9] [FeedEvent.lookup ⟨[1], [171]⟩, FeedEvent.getContent ⟨[1], [171]⟩]
    "invalid character" rfl rfl

/-- C6: `publisherToAddress` is deterministic; a string that does not
hex-decode fails with `ErrPublisher`; one that decodes to bytes the
crypto oracle cannot decompress fails with `ErrPubKey`; and one whose
bytes decompress to a public key yields that key's derived address with
no error. -/
theorem publisherToAddress_cases (env : Env) (p : String) :
    publisherToAddress env p = publisherToAddress env p ∧
    (hexDecode p = none →
      publisherToAddress env p = Except.error GoError.errPublisher) ∧
    (∀ bs m, hexDecode p = some bs → env.decompressPubkey bs = Except.error m →
      publisherToAddress env p = Except.error GoError.errPubKey) ∧
    (∀ bs k, hexDecode p = some bs → env.decompressPubkey bs = Except.ok k →
      publisherToAddress env p = Except.ok (env.pubkeyToAddress k)) := by
  refine ⟨rfl, ?_, ?_, ?_⟩
  · intro hd
    simp [publisherToAddress, hd]
  · intro bs m hd hdc
    simp [publisherToAddress, hd, hdc]
  · intro bs k hd hdc
    simp [publisherToAddress, hd, hdc]

/-- Witness for C6 at a concrete environment, one case per conjunct. -/
theorem publisherToAddress_cases_witness :
    publisherToAddress okEnv "zz" = Except.error GoError.errPublisher ∧
    publisherToAddress okEnv "" = Except.error GoError.errPubKey ∧
    publisherToAddress okEnv "ab" = Except.ok [171] :=
  ⟨(publisherToAddress_cases okEnv "zz").2.1 rfl,
   (publisherToAddress_cases okEnv "").2.2.1 [] "invalid public key" rfl rfl,
   (publisherToAddress_cases okEnv "ab").2.2.2 [171] [171] rfl rfl⟩

/-- C7: in `getFeedContent`, a lookup failing exactly with
"no feed updates found" is non-fatal and the content read is still
attempted; any other lookup failure yields `ErrFeedLookup` with no
content read; a content-read failure after a non-fatal lookup yields
`ErrFeedContent`; otherwise the content bytes are returned with no
error. -/
theorem getFeedContent_cases (env : Env) (t : FeedTopic) (u : Address) :
    (env.lookup ⟨t, u⟩ = some "no feed updates found" →
      (getFeedContent env t u).2 =
        [FeedEvent.lookup ⟨t, u⟩, FeedEvent.getContent ⟨t, u⟩]) ∧
    (∀ m, env.lookup ⟨t, u⟩ = some m → m ≠ "no feed updates found" →
      getFeedContent env t u =
        (Except.error GoError.errFeedLookup, [FeedEvent.lookup ⟨t, u⟩])) ∧
    (∀ m, lookupIsFatal (env.lookup ⟨t, u⟩) = false →
      env.getContent ⟨t, u⟩ = Except.error m →
      getFeedContent env t u =
        (Except.error GoError.errFeedContent,
          [FeedEvent.lookup ⟨t, u⟩, FeedEvent.getContent ⟨t, u⟩])) ∧
    (∀ c, lookupIsFatal (env.lookup ⟨t, u⟩) = false →
      env.getContent ⟨t, u⟩ = Except.ok c →
      getFeedContent env t u =
        (Except.ok c, [FeedEvent.lookup ⟨t, u⟩, FeedEvent.getContent ⟨t, u⟩])) := by
  refine ⟨?_, ?_, ?_, ?_⟩
  · intro hl
    have hf : lookupIsFatal (env.lookup ⟨t, u⟩) = false := by
      rw [hl]; rfl
    cases hc : env.getContent ⟨t, u⟩ <;> simp [getFeedContent, hf, hc]
  · intro m hl hm
    have hf : lookupIsFatal (env.lookup ⟨t, u⟩) = true := by
      rw [hl]; simp [lookupIsFatal, bne_iff_ne, hm]
    simp [getFeedContent, hf]
  · intro m hf hc
    simp [getFeedContent, hf, hc]
  · intro c hf hc
    simp [getFeedContent, hf, hc]

/-- A sample environment whose lookups report no feed updates yet. -/
def noUpdatesEnv : Env :=
  { okEnv with lookup := fun _ => some "no feed updates found" }

/-- Witness for C7: after a "no feed updates found" lookup, the content
read is still issued and its bytes are returned. -/
theorem getFeedContent_cases_witness :
    (getFeedContent noUpdatesEnv [1] [171]).2 =
      [FeedEvent.lookup ⟨[1], [171]⟩, FeedEvent.getContent ⟨[1], [171]⟩] :=
  (getFeedContent_cases noUpdatesEnv [1] [171]).1 rfl

/-- C8: the hook of `NewRecoveryHook` returns a failed pinner resolution's
error unchanged without calling the sender; on successful resolution it
calls the sender exactly once — with the fixed recovery topic, the
resolved targets, and the chunk address as payload — and returns `ok`
on transport success or the transport error unchanged. -/
theorem recoveryHook_cases (env : Env) (fb : String) (ctx : Context)
    (addr : Bytes) :
    (∀ e evs, getPinners env ctx fb = (Except.error e, evs) →
      NewRecoveryHook env fb ctx addr = (Except.error e, evs, [])) ∧
    (∀ ts evs, getPinners env ctx fb = (Except.ok ts, evs) →
      (NewRecoveryHook env fb ctx addr).2.2 =
        [⟨ts, RecoveryTopic env, addr⟩] ∧
      (env.send ctx ts (RecoveryTopic env) addr = Except.ok () →
        NewRecoveryHook env fb ctx addr =
          (Except.ok (), evs, [⟨ts, RecoveryTopic env, addr⟩])) ∧
      (∀ e2, env.send ctx ts (RecoveryTopic env) addr = Except.error e2 →
        NewRecoveryHook env fb ctx addr =
          (Except.error e2, evs, [⟨ts, RecoveryTopic env, addr⟩]))) := by
  constructor
  · intro e evs hp
    simp [NewRecoveryHook, hp]
  · intro ts evs hp
    refine ⟨?_, ?_, ?_⟩
    · cases hs : env.send ctx ts (RecoveryTopic env) addr <;>
        simp [NewRecoveryHook, hp, hs]
    · intro hs
      simp [NewRecoveryHook, hp, hs]
    · intro e2 hs
      simp [NewRecoveryHook, hp, hs]

/-- Witness for C8: successful resolution and transport at a concrete
environment; the sender is called once with the recovery topic and the
chunk address. -/
theorem recoveryHook_cases_witness :
    NewRecoveryHook okEnv "" ⟨some "ab", none⟩ [5, 6] =
      (Except.ok (),
        [FeedEvent.lookup ⟨[1], [171]⟩, FeedEvent.getContent ⟨[1], [171]⟩],
        [⟨[[7]], RecoveryTopic okEnv, [5, 6]⟩]) :=
  ((recoveryHook_cases okEnv "" ⟨some "ab", none⟩ [5, 6]).2 [[7]]
    [FeedEvent.lookup ⟨[1], [171]⟩, FeedEvent.getContent ⟨[1], [171]⟩]
    rfl).2.1 rfl

/-- C9: the handler of `NewRepairHandler` issues exactly one re-upload
state transition, for the address equal to the message payload; two
invocations with the same message issue two such requests; and the
handler surfaces nothing — its outcome is identical even when the
store's `Set` fails. -/
theorem repairHandler_single_reupload (env : Env) (m : TrojanMessage) :
    NewRepairHandler env m = [⟨ModeSet.reUpload, m.payload⟩] ∧
    (NewRepairHandler env m ++ NewRepairHandler env m).length = 2 ∧
    NewRepairHandler { env with set := fun _ _ => Except.error "store failure" } m =
      NewRepairHandler env m :=
  ⟨rfl, rfl, rfl⟩

/-- C10: with no publisher string in the context, `getPinners` proceeds
with the empty publisher string, which hex-decodes to the empty byte
sequence; decompression of those bytes fails, so with no fallback
publisher the result is exactly `ErrPubKey` — not `ErrPublisher` and not
any other error — before any feed-handler call. -/
theorem getPinners_absent_publisher (env : Env) (ctx : Context)
    (t : FeedTopic) (m : String)
    (hp : ctx.publisher = none)
    (ht : env.newTopic RecoveryTopicText = Except.ok t)
    (hd : env.decompressPubkey [] = Except.error m) :
    hexDecode "" = some [] ∧
    getPinners env ctx "" = (Except.error GoError.errPubKey, []) := by
  refine ⟨rfl, ?_⟩
  have hdd : hexDecode "" = some [] := rfl
  have hpa : publisherToAddress env "" = Except.error GoError.errPubKey := by
    simp [publisherToAddress, hdd, hd]
  have hq : queryRecoveryFeed env RecoveryTopicText (ctx.publisher.getD "") =
      (Except.error GoError.errPubKey, []) := by
    rw [hp]
    simp [queryRecoveryFeed, getFeedTopicAndUser, ht, hpa]
  simp [getPinners, hq]

/-- Witness for C10 at a concrete environment and context. -/
theorem getPinners_absent_publisher_witness :
    hexDecode "" = some [] ∧
    getPinners okEnv ⟨none, none⟩ "" =
      (Except.error GoError.errPubKey, []) :=
  getPinners_absent_publisher okEnv ⟨none, none⟩ [1] "invalid public key"
    rfl rfl rfl
